import Mathlib

/-! Verification of the argv2object command-line parsing pipeline.

This file shallowly embeds the JavaScript sources of the argv2object
library: `src/functions.mjs` (formatKey, convertValue,
createObjectFromArguments), `src/argv2Object.mjs` (the REGEXPS validation
patterns and the argv2Object pipeline) and the error taxonomy of
`src/constants.mjs`.

Modelling conventions:
* JavaScript strings are Lean `String`s (lists of characters).
* JavaScript numbers are modelled by their exact mathematical value before
  IEEE-754 rounding: a finite value is a decimal mantissa/exponent pair
  (`Decimal m e` denotes m * 10 ^ e), and NaN and the two infinities are
  separate constructors.  No verified property depends on float rounding.
* The process-wide argument vector (`process.argv.slice(2)`) is passed in
  as an explicit list parameter, as directed by spec sections 6 and 9.
* Regular-expression tests are translated to decidable Char-list
  predicates with the exact JavaScript `RegExp.prototype.test` semantics
  (unanchored search unless the pattern itself is anchored; `.` matches
  any character except a line terminator; `$` matches only at the end of
  the input since no multiline flag is used).
-/

-- ━━ Character classes ━━━━━━━━━━━━━━━━━━━━━━━━━━━━━━━━━━━━━━━━━━━━━━━━━━━

/-- The regex character class `[a-z]` (ASCII lowercase letters). -/
def isLowerAlpha (c : Char) : Bool :=
  decide ('a' ≤ c) && decide (c ≤ 'z')

/-- The regex character class `[a-zA-Z]` (ASCII letters). -/
def isAlphaChar (c : Char) : Bool :=
  (decide ('a' ≤ c) && decide (c ≤ 'z')) || (decide ('A' ≤ c) && decide (c ≤ 'Z'))

/-- The regex character class `[0-9]` (ASCII digits). -/
def isDigitChar (c : Char) : Bool :=
  decide ('0' ≤ c) && decide ('0' ≤ c) && decide (c ≤ '9')

/-- Characters matched by the regex metacharacter `.` without an `s` flag:
everything except the four ECMAScript line terminators
(LF, CR, LINE SEPARATOR, PARAGRAPH SEPARATOR). -/
def isDotChar (c : Char) : Bool :=
  !(c.val = 10 || c.val = 13 || c.val = 8232 || c.val = 8233)

/-- ECMAScript StrWhiteSpaceChar: WhiteSpace and LineTerminator code points,
as trimmed by `parseFloat` and string-to-number conversion. -/
def isJSWhitespace (c : Char) : Bool :=
  c.val = 9 || c.val = 10 || c.val = 11 || c.val = 12 || c.val = 13 ||
  c.val = 32 || c.val = 160 || c.val = 5760 ||
  (decide (8192 ≤ c.val) && decide (c.val ≤ 8202)) ||
  c.val = 8232 || c.val = 8233 || c.val = 8239 || c.val = 8287 ||
  c.val = 12288 || c.val = 65279

/-- Hexadecimal digit class for `0x` numeric literals. -/
def isHexDigitChar (c : Char) : Bool :=
  isDigitChar c || (decide ('a' ≤ c) && decide (c ≤ 'f')) ||
    (decide ('A' ≤ c) && decide (c ≤ 'F'))

/-- Octal digit class for `0o` numeric literals. -/
def isOctDigitChar (c : Char) : Bool :=
  decide ('0' ≤ c) && decide (c ≤ '7')

/-- Binary digit class for `0b` numeric literals. -/
def isBinDigitChar (c : Char) : Bool :=
  c = '0' || c = '1'

-- ━━ JavaScript value model ━━━━━━━━━━━━━━━━━━━━━━━━━━━━━━━━━━━━━━━━━━━━━━

/-- Exact decimal number: `Decimal m e` denotes the mathematical value
m * 10 ^ e (the value of a numeric string literal before float rounding). -/
structure Decimal where
  mant : Int
  exp : Int
deriving DecidableEq, Repr

/-- A JavaScript number: NaN, an infinity, or a finite decimal value. -/
inductive JSNum where
  | nan : JSNum
  | inf (neg : Bool) : JSNum
  | fin (d : Decimal) : JSNum
deriving DecidableEq, Repr

/-- A value produced by the pipeline: string, boolean or number
(the string | boolean | number union of the library's value contract). -/
inductive JSValue where
  | str (s : String) : JSValue
  | boolean (b : Bool) : JSValue
  | num (n : JSNum) : JSValue
deriving DecidableEq, Repr

/-- An arbitrary JavaScript argument value, as far as the `typeof`
dispatch in `argv2Object` distinguishes it. -/
inductive JSAny where
  | boolean (b : Bool) : JSAny
  | number (n : JSNum) : JSAny
  | string (s : String) : JSAny
deriving DecidableEq, Repr

/-- `typeof x === 'boolean'` on the modelled values. -/
def typeofIsBoolean : JSAny → Bool
  | JSAny.boolean _ => true
  | _ => false

/-- The error taxonomy of the pipeline (spec section 7), matching the
THROWS_ERRORS_MESSAGES / ERROR_MESSAGES constants of the source. -/
inductive ArgvError where
  /-- InvalidModeType: the "unixmode" parameter must be a boolean value. -/
  | invalidModeType : ArgvError
  /-- EmptyArguments: no command-line arguments were provided. -/
  | emptyArguments : ArgvError
  /-- FormatMismatchSimple: arguments must follow "key=value" format. -/
  | formatMismatchSimple : ArgvError
  /-- FormatMismatchUnix: arguments must follow Unix-style format. -/
  | formatMismatchUnix : ArgvError
deriving DecidableEq, Repr

/-- Which error kinds are thrown as `TypeError` in the source
(`throw new TypeError(...)` for the mode check, `throw new Error(...)`
for all others). -/
def errorIsTypeError : ArgvError → Bool
  | ArgvError.invalidModeType => true
  | _ => false

-- ━━ String-to-number conversion (parseFloat / Number) ━━━━━━━━━━━━━━━━━━━

/-- Numeric value of a list of decimal digit characters. -/
def natOfDigits (ds : List Char) : Nat :=
  ds.foldl (fun n c => 10 * n + (c.toNat - 48)) 0

/-- Numeric value of a digit list in a given radix with a digit-value map. -/
def natOfRadix (radix : Nat) (val : Char → Nat) (ds : List Char) : Nat :=
  ds.foldl (fun n c => radix * n + val c) 0

/-- Value of a hexadecimal digit character. -/
def hexDigitVal (c : Char) : Nat :=
  if isDigitChar c then c.toNat - 48
  else if decide ('a' ≤ c) && decide (c ≤ 'f') then c.toNat - 87
  else c.toNat - 55

/-- Parse a required nonempty digit sequence as a (possibly negated)
exponent; the digits must make up the whole remaining input. -/
def parseExpDigits (cs : List Char) (neg : Bool) : Option Int :=
  if !cs.isEmpty && cs.all isDigitChar then
    some (if neg then -((natOfDigits cs : Nat) : Int) else ((natOfDigits cs : Nat) : Int))
  else none

/-- Parse the ECMAScript SignedInteger of an exponent part. -/
def parseSignedExp : List Char → Option Int
  | '+' :: rest => parseExpDigits rest false
  | '-' :: rest => parseExpDigits rest true
  | rest => parseExpDigits rest false

/-- Parse an optional ExponentPart that must consume the whole remaining
input; an empty input means exponent 0. -/
def parseExpTail : List Char → Option Int
  | [] => some 0
  | 'e' :: rest => parseSignedExp rest
  | 'E' :: rest => parseSignedExp rest
  | _ => none

/-- Full-input parse of an ECMAScript StrUnsignedDecimalLiteral:
`Infinity`, `digits [. digits] [exp]`, or `. digits [exp]`. -/
def parseUnsignedFull (cs : List Char) : Option JSNum :=
  if cs = "Infinity".data then some (JSNum.inf false)
  else
    let intPart := cs.takeWhile isDigitChar
    let rest1 := cs.dropWhile isDigitChar
    if intPart.isEmpty then
      match rest1 with
      | '.' :: rest2 =>
        let fracPart := rest2.takeWhile isDigitChar
        let rest3 := rest2.dropWhile isDigitChar
        if fracPart.isEmpty then none
        else
          (parseExpTail rest3).map fun e =>
            JSNum.fin ⟨((natOfDigits fracPart : Nat) : Int), e - (fracPart.length : Int)⟩
      | _ => none
    else
      match rest1 with
      | '.' :: rest2 =>
        let fracPart := rest2.takeWhile isDigitChar
        let rest3 := rest2.dropWhile isDigitChar
        (parseExpTail rest3).map fun e =>
          JSNum.fin ⟨((natOfDigits (intPart ++ fracPart) : Nat) : Int), e - (fracPart.length : Int)⟩
      | _ =>
        (parseExpTail rest1).map fun e =>
          JSNum.fin ⟨((natOfDigits intPart : Nat) : Int), e⟩

/-- JavaScript unary minus on the modelled numbers. -/
def jsNegNum : JSNum → JSNum
  | JSNum.nan => JSNum.nan
  | JSNum.inf b => JSNum.inf (!b)
  | JSNum.fin d => JSNum.fin ⟨-d.mant, d.exp⟩

/-- Full-input parse of a NonDecimalIntegerLiteral body (the digits after
`0x`, `0o` or `0b`). -/
def parseRadixTail (cs : List Char) (radix : Nat) (isDig : Char → Bool)
    (val : Char → Nat) : Option JSNum :=
  if !cs.isEmpty && cs.all isDig then
    some (JSNum.fin ⟨((natOfRadix radix val cs : Nat) : Int), 0⟩)
  else none

/-- ECMAScript string-to-number conversion of an already trimmed input:
empty means 0; otherwise the whole input must be a StrNumericLiteral. -/
def strToNumber (cs : List Char) : JSNum :=
  match cs with
  | [] => JSNum.fin ⟨0, 0⟩
  | '+' :: rest => (parseUnsignedFull rest).getD JSNum.nan
  | '-' :: rest => ((parseUnsignedFull rest).map jsNegNum).getD JSNum.nan
  | '0' :: 'x' :: rest => (parseRadixTail rest 16 isHexDigitChar hexDigitVal).getD JSNum.nan
  | '0' :: 'X' :: rest => (parseRadixTail rest 16 isHexDigitChar hexDigitVal).getD JSNum.nan
  | '0' :: 'o' :: rest => (parseRadixTail rest 8 isOctDigitChar (fun c => c.toNat - 48)).getD JSNum.nan
  | '0' :: 'O' :: rest => (parseRadixTail rest 8 isOctDigitChar (fun c => c.toNat - 48)).getD JSNum.nan
  | '0' :: 'b' :: rest => (parseRadixTail rest 2 isBinDigitChar (fun c => c.toNat - 48)).getD JSNum.nan
  | '0' :: 'B' :: rest => (parseRadixTail rest 2 isBinDigitChar (fun c => c.toNat - 48)).getD JSNum.nan
  | _ => (parseUnsignedFull cs).getD JSNum.nan

/-- Strip leading and trailing ECMAScript whitespace. -/
def trimJS (cs : List Char) : List Char :=
  ((cs.dropWhile isJSWhitespace).reverse.dropWhile isJSWhitespace).reverse

/-- `Number(s)` for a string argument: trim, then full-input numeric parse. -/
def numberJS (s : String) : JSNum :=
  strToNumber (trimJS s.data)

/-- Whether a StrDecimalLiteral can begin here: after an optional sign,
the literal `Infinity`, a digit, or a dot followed by a digit. -/
def unsignedDecimalStart (cs : List Char) : Bool :=
  cs.take 8 = "Infinity".data ||
  (match cs with
   | c :: _ => isDigitChar c
   | [] => false) ||
  (match cs with
   | '.' :: c :: _ => isDigitChar c
   | _ => false)

/-- Whether some nonempty StrDecimalLiteral is a valid first segment of the
input (the success condition of `parseFloat` after whitespace skipping). -/
def hasDecimalLiteralStart : List Char → Bool
  | '+' :: rest => unsignedDecimalStart rest
  | '-' :: rest => unsignedDecimalStart rest
  | cs => unsignedDecimalStart cs

/-- `Number.isNaN(parseFloat(s))` for a string `s`: `parseFloat` skips
leading whitespace and parses the longest numeric-literal leading segment,
returning NaN exactly when no such nonempty segment exists.  Only the
NaN-ness of the `parseFloat` result is consumed by `convertValue`. -/
def parseFloatIsNaN (s : String) : Bool :=
  !(hasDecimalLiteralStart (s.data.dropWhile isJSWhitespace))

/-- `Number.isNaN(value)` where `value` is a string: always false, because
`Number.isNaN` performs no coercion and a string is never the NaN number
value.  (This is the vacuous first conjunct of the numeric test in
`convertValue`.) -/
def numberIsNaNOnString (_s : String) : Bool := false

-- ━━ convertValue (src/functions.mjs lines 78-84) ━━━━━━━━━━━━━━━━━━━━━━━━

/-- `convertValue` from functions.mjs: `undefined` (absent) becomes `true`;
the literal strings true/false become booleans; then
`if (!Number.isNaN(value) && !Number.isNaN(parseFloat(value))) return Number(value)`;
all remaining strings are returned unchanged. -/
def convertValue (value : Option String) : JSValue :=
  match value with
  | none => JSValue.boolean true
  | some v =>
    if v = "true" then JSValue.boolean true
    else if v = "false" then JSValue.boolean false
    else if !(numberIsNaNOnString v) && !(parseFloatIsNaN v) then JSValue.num (numberJS v)
    else JSValue.str v

-- ━━ formatKey (src/functions.mjs lines 38-53) ━━━━━━━━━━━━━━━━━━━━━━━━━━━

/-- `key.replace(/^-{1,2}/, '')`: greedily remove one or two leading
dashes. -/
def stripLeadingDashes (cs : List Char) : List Char :=
  match cs with
  | c :: rest =>
    if c = '-' then
      match rest with
      | c2 :: rest2 => if c2 = '-' then rest2 else rest
      | [] => rest
    else cs
  | [] => cs

/-- The characterwise effect of the global replacement of the pattern
`-` with an underscore (the snakecase branch of formatKey). -/
def dashToUnderscore (c : Char) : Char :=
  if c = '-' then '_' else c

/-- The global replacement of the pattern `-([a-z])` with
`(_, char) => char.toUpperCase()` (the camelcase branch of formatKey):
left-to-right non-overlapping replacement of a dash followed by a
lowercase letter with that letter upper-cased. -/
def camelize : List Char → List Char
  | [] => []
  | [c] => if c = '-' then ['-'] else [c]
  | c :: c2 :: rest =>
    if c = '-' then
      if isLowerAlpha c2 then c2.toUpper :: camelize rest
      else '-' :: camelize (c2 :: rest)
    else c :: camelize (c2 :: rest)

/-- `formatKey` from functions.mjs: strip 1-2 leading dashes, then apply
the casing mode ('camelcase', 'snakecase', or anything else for no
conversion).  The runtime TypeError guard for non-string keys is vacuous
here because the key is a `String` by type. -/
def formatKey (key : String) (mode : Option String) : String :=
  let sanitizedKey := stripLeadingDashes key.data
  match mode with
  | some "camelcase" => String.mk (camelize sanitizedKey)
  | some "snakecase" => String.mk (sanitizedKey.map dashToUnderscore)
  | _ => String.mk sanitizedKey

-- ━━ Validation regexes (src/argv2Object.mjs lines 65-68) ━━━━━━━━━━━━━━━━

/-- Tail of the key grammar after its first letter:
`([a-zA-Z] | -[a-zA-Z])* = .*` to the end of the input.  This is the
backtracking-equivalent deterministic form of
`[a-zA-Z]*(?:-[a-zA-Z]+)*=.*$` continuing a letter run (the character
classes for letters, `-` and `=` are disjoint, so greedy scanning is
exact). -/
def simpleKeyTail : List Char → Bool
  | [] => false
  | '=' :: rest => rest.all isDotChar
  | '-' :: [] => false
  | '-' :: c2 :: rest2 => isAlphaChar c2 && simpleKeyTail rest2
  | c :: rest => isAlphaChar c && simpleKeyTail rest

/-- `REGEXPS.SIMPLE.test(s)` for `/^[a-zA-Z]+(?:-[a-zA-Z]+)*=.*$/`:
anchored at both ends, so the whole token must be one or more
hyphen-joined letter segments, `=`, then any line-terminator-free value. -/
def simpleTest (s : String) : Bool :=
  match s.data with
  | c :: rest => isAlphaChar c && simpleKeyTail rest
  | [] => false

/-- First alternative `^-[a-z]` of the UNIXMODE regex: the token starts
with a dash and a lowercase letter (nothing further is required). -/
def startsWithShortFlag : List Char → Bool
  | '-' :: c :: _ => isLowerAlpha c
  | _ => false

/-- Second alternative `-[a-z]=.*$` of the UNIXMODE regex, tested at one
start position. -/
def shortEqBranch : List Char → Bool
  | '-' :: c :: '=' :: rest => isLowerAlpha c && rest.all isDotChar
  | _ => false

/-- Third alternative `--[a-zA-Z]+` of the UNIXMODE regex, tested at one
start position. -/
def longBranch : List Char → Bool
  | '-' :: '-' :: c :: _ => isAlphaChar c
  | _ => false

/-- Fourth alternative `--[a-zA-Z]+(?:-[a-zA-Z]+)*=.*$` of the UNIXMODE
regex, tested at one start position. -/
def longEqBranch : List Char → Bool
  | '-' :: '-' :: c :: rest => isAlphaChar c && simpleKeyTail rest
  | _ => false

/-- Does a predicate hold at some suffix (i.e. does an unanchored
alternative match at some start position)? -/
def existsSuffix (p : List Char → Bool) : List Char → Bool
  | [] => p []
  | c :: cs => p (c :: cs) || existsSuffix p cs

/-- `REGEXPS.UNIXMODE.test(s)` for
`/^-[a-z]{1}|-[a-z]{1}=.*$|--[a-zA-Z]+|--[a-zA-Z]+(?:-[a-zA-Z]+)*=.*$/`:
a top-level alternation in which only the first alternative is anchored
at the start; `test` searches every start position, so the other three
alternatives may match anywhere inside the token. -/
def unixmodeTest (s : String) : Bool :=
  startsWithShortFlag s.data || existsSuffix shortEqBranch s.data ||
    existsSuffix longBranch s.data || existsSuffix longEqBranch s.data

-- ━━ Object model and the pipeline ━━━━━━━━━━━━━━━━━━━━━━━━━━━━━━━━━━━━━━━

/-- A JavaScript object with string keys, as an insertion-ordered list of
key/value pairs with unique keys. -/
abbrev JSObject := List (String × JSValue)

/-- Property assignment: overwrite the value in place if the key exists,
otherwise append a new entry (ordinary-object semantics, which is what
`Object.fromEntries` performs entry by entry). -/
def objSet (m : JSObject) (k : String) (v : JSValue) : JSObject :=
  match m with
  | [] => [(k, v)]
  | (k1, v1) :: rest => if k1 = k then (k1, v) :: rest else (k1, v1) :: objSet rest k v

/-- `Object.fromEntries`: fold the entries left to right into an object. -/
def fromEntries (es : List (String × JSValue)) : JSObject :=
  es.foldl (fun m e => objSet m e.1 e.2) []

/-- Property lookup on the modelled object. -/
def objGet (m : JSObject) (k : String) : Option JSValue :=
  match m with
  | [] => none
  | (k1, v1) :: rest => if k1 = k then some v1 else objGet rest k

/-- `s.split('=')` for the single-character separator `=`. -/
def splitEqList : List Char → List (List Char)
  | [] => [[]]
  | '=' :: rest => [] :: splitEqList rest
  | c :: rest =>
    match splitEqList rest with
    | [] => [[c]]
    | g :: gs => (c :: g) :: gs

/-- The per-token body of the entries map in `argv2Object`:
`const [k, v] = argumentv.split('=')`, then
`formatKey(k, 'snakecase')` and `convertValue(v)`.  Note that the array
destructuring keeps only the first two fields of the split. -/
def tokenToEntry (argumentv : String) : String × JSValue :=
  let parts := splitEqList argumentv.data
  let k : String := String.mk (parts.headD [])
  let v : Option String := (parts[1]?).map fun l => String.mk l
  (formatKey k (some "snakecase"), convertValue v)

/-- `createObjectFromArguments` from functions.mjs: the same split /
format / convert map with a caller-chosen casing mode, folded by
`Object.fromEntries`. -/
def createObjectFromArguments (argumentsv : List String) (mode : Option String) : JSObject :=
  fromEntries (argumentsv.map fun argumentv =>
    let parts := splitEqList argumentv.data
    (formatKey (String.mk (parts.headD [])) mode,
      convertValue ((parts[1]?).map fun l => String.mk l)))

/-- `argv2Object` from argv2Object.mjs: reject a non-boolean mode with a
TypeError, reject an empty token list, validate every token against the
mode's regex, then build the object from the split / format / convert
entries.  The token list parameter stands for `process.argv.slice(2)`. -/
def argv2Object (unixmode : JSAny) (argumentsv : List String) : Except ArgvError JSObject :=
  match unixmode with
  | JSAny.boolean mode =>
    if argumentsv.length = 0 then Except.error ArgvError.emptyArguments
    else
      let regexp : String → Bool := if mode then unixmodeTest else simpleTest
      if !(argumentsv.all regexp) then
        Except.error (if mode then ArgvError.formatMismatchUnix else ArgvError.formatMismatchSimple)
      else
        Except.ok (fromEntries (argumentsv.map tokenToEntry))
  | _ => Except.error ArgvError.invalidModeType

/-- The live entry point: read the argument vector and discard the two
conventional leading entries (`process.argv.slice(2)`). -/
def argv2ObjectFromProcessArgv (unixmode : JSAny) (processArgv : List String) :
    Except ArgvError JSObject :=
  argv2Object unixmode (processArgv.drop 2)

/-- Value of the last entry with a given key in an entry sequence
(later entries take precedence). -/
def lastEntryValue (es : List (String × JSValue)) (k : String) : Option JSValue :=
  match es with
  | [] => none
  | e :: rest =>
    match lastEntryValue rest k with
    | some v => some v
    | none => if e.1 = k then some e.2 else none

/-- Left-biased choice on optional values. -/
def optOr (a b : Option JSValue) : Option JSValue :=
  match a with
  | some v => some v
  | none => b


-- ━━ Object-model lemmas ━━━━━━━━━━━━━━━━━━━━━━━━━━━━━━━━━━━━━━━━━━━━━━━━━

theorem objSet_ne_nil (m : JSObject) (k : String) (v : JSValue) : objSet m k v ≠ [] := by
  cases m with
  | nil => simp [objSet]
  | cons e rest =>
    obtain ⟨k1, v1⟩ := e
    simp only [objSet]
    split <;> simp

theorem objGet_objSet (m : JSObject) (k k1 : String) (v : JSValue) :
    objGet (objSet m k v) k1 = if k = k1 then some v else objGet m k1 := by
  induction m with
  | nil => simp [objSet, objGet]
  | cons e rest ih =>
    obtain ⟨k2, v2⟩ := e
    by_cases h2 : k2 = k
    · subst h2
      by_cases h1 : k2 = k1
      · subst h1
        simp [objSet, objGet]
      · simp [objSet, objGet, h1]
    · by_cases h1 : k2 = k1
      · subst h1
        have hk : ¬ k = k2 := fun hk => h2 hk.symm
        simp [objSet, objGet, h2, hk]
      · simp [objSet, objGet, h2, h1, ih]

theorem foldl_objSet_ne_nil (es : List (String × JSValue)) (m : JSObject) (hm : m ≠ []) :
    es.foldl (fun acc e => objSet acc e.1 e.2) m ≠ [] := by
  induction es generalizing m with
  | nil => simpa using hm
  | cons e rest ih => exact ih (objSet m e.1 e.2) (objSet_ne_nil m e.1 e.2)

theorem fromEntries_ne_nil (es : List (String × JSValue)) (h : es ≠ []) :
    fromEntries es ≠ [] := by
  cases es with
  | nil => simp at h
  | cons e rest =>
    have := foldl_objSet_ne_nil rest (objSet [] e.1 e.2) (objSet_ne_nil [] e.1 e.2)
    simpa [fromEntries] using this

theorem length_objSet_le (m : JSObject) (k : String) (v : JSValue) :
    (objSet m k v).length ≤ m.length + 1 := by
  induction m with
  | nil => simp [objSet]
  | cons e rest ih =>
    obtain ⟨k1, v1⟩ := e
    simp only [objSet]
    split
    · simp
    · simp only [List.length_cons]
      omega

theorem length_objSet_of_get_none (m : JSObject) (k : String) (v : JSValue)
    (h : objGet m k = none) : (objSet m k v).length = m.length + 1 := by
  induction m with
  | nil => simp [objSet]
  | cons e rest ih =>
    obtain ⟨k1, v1⟩ := e
    simp only [objGet] at h
    by_cases h1 : k1 = k
    · simp [h1] at h
    · rw [if_neg h1] at h
      simp only [objSet, if_neg h1, List.length_cons, ih h]

theorem foldl_objSet_length_le (es : List (String × JSValue)) (m : JSObject) :
    (es.foldl (fun acc e => objSet acc e.1 e.2) m).length ≤ m.length + es.length := by
  induction es generalizing m with
  | nil => simp
  | cons e rest ih =>
    have h1 := ih (objSet m e.1 e.2)
    have h2 := length_objSet_le m e.1 e.2
    simp only [List.foldl_cons, List.length_cons]
    omega

theorem fromEntries_length_le (es : List (String × JSValue)) :
    (fromEntries es).length ≤ es.length := by
  have := foldl_objSet_length_le es []
  simpa [fromEntries] using this

theorem foldl_objSet_length_nodup (es : List (String × JSValue)) :
    ∀ m : JSObject, (∀ e ∈ es, objGet m e.1 = none) → (es.map Prod.fst).Nodup →
      (es.foldl (fun acc e => objSet acc e.1 e.2) m).length = m.length + es.length := by
  induction es with
  | nil =>
    intro m _ _
    simp
  | cons e rest ih =>
    intro m hnone hnd
    simp only [List.map_cons, List.nodup_cons] at hnd
    obtain ⟨hnotin, hnd2⟩ := hnd
    have hm : objGet m e.1 = none := hnone e (by simp)
    have hstep : ∀ e2 ∈ rest, objGet (objSet m e.1 e.2) e2.1 = none := by
      intro e2 he2
      rw [objGet_objSet, if_neg]
      · exact hnone e2 (by simp [he2])
      · intro hkeq
        exact hnotin (by rw [hkeq]; exact List.mem_map_of_mem Prod.fst he2)
    simp only [List.foldl_cons, List.length_cons]
    rw [ih (objSet m e.1 e.2) hstep hnd2, length_objSet_of_get_none m e.1 e.2 hm]
    omega

theorem fromEntries_length_nodup (es : List (String × JSValue))
    (h : (es.map Prod.fst).Nodup) : (fromEntries es).length = es.length := by
  have := foldl_objSet_length_nodup es [] (fun e _ => rfl) h
  simpa [fromEntries] using this

theorem optOr_none_right (a : Option JSValue) : optOr a none = a := by
  cases a <;> rfl

theorem foldl_objGet (es : List (String × JSValue)) :
    ∀ (m : JSObject) (k : String),
      objGet (es.foldl (fun acc e => objSet acc e.1 e.2) m) k =
        optOr (lastEntryValue es k) (objGet m k) := by
  induction es with
  | nil =>
    intro m k
    rfl
  | cons e rest ih =>
    intro m k
    simp only [List.foldl_cons]
    rw [ih (objSet m e.1 e.2) k, objGet_objSet]
    cases hl : lastEntryValue rest k with
    | some v => simp [lastEntryValue, optOr, hl]
    | none =>
      by_cases he : e.1 = k
      · simp [lastEntryValue, optOr, hl, he]
      · simp [lastEntryValue, optOr, hl, he]

theorem objGet_fromEntries (es : List (String × JSValue)) (k : String) :
    objGet (fromEntries es) k = lastEntryValue es k := by
  have := foldl_objGet es [] k
  simpa [fromEntries, objGet, optOr_none_right] using this

-- ━━ Pipeline characterization lemmas ━━━━━━━━━━━━━━━━━━━━━━━━━━━━━━━━━━━━

theorem argv2Object_validation (mode : Bool) (tokens : List String) (hne : tokens ≠ []) :
    argv2Object (JSAny.boolean mode) tokens =
      if tokens.all (if mode then unixmodeTest else simpleTest) then
        Except.ok (fromEntries (tokens.map tokenToEntry))
      else
        Except.error
          (if mode then ArgvError.formatMismatchUnix else ArgvError.formatMismatchSimple) := by
  have h0 : ¬ tokens.length = 0 := by
    simpa [List.length_eq_zero] using hne
  simp only [argv2Object, if_neg h0]
  cases hall : tokens.all (if mode then unixmodeTest else simpleTest) with
  | true => simp [hall]
  | false => simp [hall]

theorem argv2Object_ok_elim (mode : Bool) (tokens : List String) (m : JSObject)
    (h : argv2Object (JSAny.boolean mode) tokens = Except.ok m) :
    tokens ≠ [] ∧ m = fromEntries (tokens.map tokenToEntry) := by
  by_cases h0 : tokens.length = 0
  · simp [argv2Object, h0] at h
  · have hne : tokens ≠ [] := fun hnil => h0 (by simp [hnil])
    refine ⟨hne, ?_⟩
    rw [argv2Object_validation mode tokens hne] at h
    by_cases hall : tokens.all (if mode then unixmodeTest else simpleTest) = true
    · rw [if_pos hall] at h
      simpa using h.symm
    · rw [if_neg hall] at h
      simp at h

-- ━━ formatKey helper lemmas ━━━━━━━━━━━━━━━━━━━━━━━━━━━━━━━━━━━━━━━━━━━━━

theorem formatKey_none (key : String) :
    formatKey key none = String.mk (stripLeadingDashes key.data) := rfl

theorem formatKey_snakecase (key : String) :
    formatKey key (some "snakecase") =
      String.mk ((stripLeadingDashes key.data).map dashToUnderscore) := rfl

theorem formatKey_camelcase (key : String) :
    formatKey key (some "camelcase") =
      String.mk (camelize (stripLeadingDashes key.data)) := rfl

theorem dashToUnderscore_ne_dash (c : Char) : ¬ dashToUnderscore c = '-' := by
  unfold dashToUnderscore
  split
  · decide
  · assumption

theorem dashToUnderscore_idem (c : Char) :
    dashToUnderscore (dashToUnderscore c) = dashToUnderscore c := by
  by_cases h : c = '-' <;> simp [dashToUnderscore, h]

theorem map_dashToUnderscore_idem (l : List Char) :
    (l.map dashToUnderscore).map dashToUnderscore = l.map dashToUnderscore := by
  induction l with
  | nil => rfl
  | cons c rest ih => simp [dashToUnderscore_idem, ih]

theorem strip_of_head_not_dash (cs : List Char) (h : ∀ c ∈ cs, ¬ c = '-') :
    stripLeadingDashes cs = cs := by
  cases cs with
  | nil => rfl
  | cons c rest => simp [stripLeadingDashes, h c (by simp)]

theorem camelize_cons_of_ne_dash (c : Char) (l : List Char) (h : ¬ c = '-') :
    camelize (c :: l) = c :: camelize l := by
  cases l with
  | nil => simp [camelize, h]
  | cons c2 rest => simp [camelize, h]

theorem camelize_append_no_dash (pre l : List Char) (h : ∀ c ∈ pre, ¬ c = '-') :
    camelize (pre ++ l) = pre ++ camelize l := by
  induction pre with
  | nil => rfl
  | cons c rest ih =>
    have hc : ¬ c = '-' := h c (by simp)
    have hrest : ∀ c2 ∈ rest, ¬ c2 = '-' := fun c2 hc2 => h c2 (by simp [hc2])
    rw [List.cons_append, camelize_cons_of_ne_dash c _ hc, ih hrest, List.cons_append]

theorem camelize_no_dash_id (cs : List Char) (h : ∀ c ∈ cs, ¬ c = '-') :
    camelize cs = cs := by
  induction cs with
  | nil => rfl
  | cons c rest ih =>
    rw [camelize_cons_of_ne_dash c rest (h c (by simp)),
      ih (fun c2 hc2 => h c2 (by simp [hc2]))]

theorem map_dashToUnderscore_no_dash_id (cs : List Char) (h : ∀ c ∈ cs, ¬ c = '-') :
    cs.map dashToUnderscore = cs := by
  induction cs with
  | nil => rfl
  | cons c rest ih =>
    have hc : ¬ c = '-' := h c (by simp)
    simp only [List.map_cons, ih (fun c2 hc2 => h c2 (by simp [hc2]))]
    simp [dashToUnderscore, hc]

-- ━━ Claim theorems ━━━━━━━━━━━━━━━━━━━━━━━━━━━━━━━━━━━━━━━━━━━━━━━━━━━━━━

/-- C1: evaluation of the code's value coercion at the inputs where the
claim fails.  `convertValue("1abc")` yields the number NaN (the vacuous
`Number.isNaN(value)` guard passes, `parseFloat("1abc")` accepts the
numeric leading segment `1`, and `Number("1abc")` is NaN), and
`convertValue("Infinity")` yields the non-finite number Infinity — in
both cases the original string is not returned unchanged, contradicting
the claim.  The remaining conjuncts record the coercions the claim
states correctly: absent value, the true/false literals, a fully numeric
string, and the empty string. -/
theorem c1_convertValue_partial_numeric_bug :
    convertValue (some "1abc") = JSValue.num JSNum.nan ∧
      convertValue (some "1abc") ≠ JSValue.str "1abc" ∧
      convertValue (some "Infinity") = JSValue.num (JSNum.inf false) ∧
      convertValue (some "Infinity") ≠ JSValue.str "Infinity" ∧
      convertValue none = JSValue.boolean true ∧
      convertValue (some "true") = JSValue.boolean true ∧
      convertValue (some "false") = JSValue.boolean false ∧
      convertValue (some "30") = JSValue.num (JSNum.fin ⟨30, 0⟩) ∧
      convertValue (some "") = JSValue.str "" :=
  ⟨rfl, by decide, rfl, by decide, rfl, rfl, rfl, rfl, rfl⟩

/-- C2 counterexample: the token `x--abc` is not wholly a short or long
flag (it does not even start with a dash), yet Unix-mode validation
accepts it — the third regex alternative `--[a-zA-Z]+` is unanchored and
matches the embedded substring `--abc` — so the call succeeds instead of
failing with the FormatMismatchUnix error as the claim requires. -/
theorem c2_unanchored_counterexample :
    unixmodeTest "x--abc" = true ∧
      argv2Object (JSAny.boolean true) ["x--abc"] =
        Except.ok [("x__abc", JSValue.boolean true)] :=
  ⟨rfl, rfl⟩

/-- C2 amended: Unix-mode validation applies REGEXPS.UNIXMODE as an
unanchored search, so for a nonempty token list the call succeeds exactly
when every token passes that weaker test (starts with `-` plus a
lowercase letter, or contains `-<lowercase>=<tail>` reaching the end, or
contains `--<letter>` anywhere, or contains a full
`--<letters>(-<letters>)*=<tail>` segment); if any token fails the test
the whole call fails with the FormatMismatchUnix error. -/
theorem c2_unix_validation_amended (tokens : List String) (hne : tokens ≠ []) :
    ((∃ m, argv2Object (JSAny.boolean true) tokens = Except.ok m) ↔
        tokens.all unixmodeTest = true) ∧
      (tokens.all unixmodeTest = false →
        argv2Object (JSAny.boolean true) tokens =
          Except.error ArgvError.formatMismatchUnix) := by
  have hv : argv2Object (JSAny.boolean true) tokens =
      if tokens.all unixmodeTest then Except.ok (fromEntries (tokens.map tokenToEntry))
      else Except.error ArgvError.formatMismatchUnix :=
    argv2Object_validation true tokens hne
  cases hall : tokens.all unixmodeTest with
  | true =>
    simp only [hall, if_true] at hv
    exact ⟨⟨fun _ => rfl, fun _ => ⟨_, hv⟩⟩, fun hf => by simp [hall] at hf⟩
  | false =>
    simp only [hall, Bool.false_eq_true, if_false] at hv
    refine ⟨⟨fun hex => ?_, fun ht => by simp [hall] at ht⟩, fun _ => hv⟩
    obtain ⟨m, hm⟩ := hex
    rw [hv] at hm
    exact absurd hm (by simp)

/-- Witness for the amended C2 at the concrete nonempty token list
`["-h"]`. -/
theorem c2_unix_validation_amended_witness :
    (["-h"] : List String) ≠ [] ∧
      (((∃ m, argv2Object (JSAny.boolean true) ["-h"] = Except.ok m) ↔
          (["-h"] : List String).all unixmodeTest = true) ∧
        ((["-h"] : List String).all unixmodeTest = false →
          argv2Object (JSAny.boolean true) ["-h"] =
            Except.error ArgvError.formatMismatchUnix)) :=
  ⟨by decide, c2_unix_validation_amended ["-h"] (by decide)⟩

/-- C3: in simple mode the call passes validation exactly when every
token matches the anchored simple pattern (hyphen-joined alphabetic
segments, `=`, then any value), and when some token fails, the whole
call fails with the FormatMismatchSimple error and no mapping is
returned. -/
theorem c3_simple_mode_validation (tokens : List String) (hne : tokens ≠ []) :
    ((∃ m, argv2Object (JSAny.boolean false) tokens = Except.ok m) ↔
        tokens.all simpleTest = true) ∧
      (tokens.all simpleTest = false →
        argv2Object (JSAny.boolean false) tokens =
          Except.error ArgvError.formatMismatchSimple) := by
  have hv : argv2Object (JSAny.boolean false) tokens =
      if tokens.all simpleTest then Except.ok (fromEntries (tokens.map tokenToEntry))
      else Except.error ArgvError.formatMismatchSimple :=
    argv2Object_validation false tokens hne
  cases hall : tokens.all simpleTest with
  | true =>
    simp only [hall, if_true] at hv
    exact ⟨⟨fun _ => rfl, fun _ => ⟨_, hv⟩⟩, fun hf => by simp [hall] at hf⟩
  | false =>
    simp only [hall, Bool.false_eq_true, if_false] at hv
    refine ⟨⟨fun hex => ?_, fun ht => by simp [hall] at ht⟩, fun _ => hv⟩
    obtain ⟨m, hm⟩ := hex
    rw [hv] at hm
    exact absurd hm (by simp)

/-- Witness for C3 at the concrete nonempty token list `["name=John"]`. -/
theorem c3_simple_mode_validation_witness :
    (["name=John"] : List String) ≠ [] ∧
      (((∃ m, argv2Object (JSAny.boolean false) ["name=John"] = Except.ok m) ↔
          (["name=John"] : List String).all simpleTest = true) ∧
        ((["name=John"] : List String).all simpleTest = false →
          argv2Object (JSAny.boolean false) ["name=John"] =
            Except.error ArgvError.formatMismatchSimple)) :=
  ⟨by decide, c3_simple_mode_validation ["name=John"] (by decide)⟩

/-- C4: evaluation at the failing input `key=a=b`.  The code splits on
every `=` and keeps only the first two fields of the array destructuring,
so the coerced value is `"a"` — the characters `=b` are dropped — rather
than the full remainder `"a=b"` after the first `=` as the claim (and
the spec's pipeline step 4) states. -/
theorem c4_split_keeps_only_second_field_bug :
    argv2Object (JSAny.boolean false) ["key=a=b"] =
        Except.ok [("key", JSValue.str "a")] ∧
      createObjectFromArguments ["key=a=b"] none = [("key", JSValue.str "a")] ∧
      JSValue.str "a" ≠ JSValue.str "a=b" :=
  ⟨rfl, rfl, by decide⟩

/-- C5: whenever the pipeline returns a mapping, each key is bound to the
value of the last entry produced for it (left-to-right fold,
last write wins). -/
theorem c5_aggregation_last_write_wins (mode : Bool) (tokens : List String)
    (m : JSObject) (h : argv2Object (JSAny.boolean mode) tokens = Except.ok m)
    (k : String) :
    objGet m k = lastEntryValue (tokens.map tokenToEntry) k := by
  obtain ⟨-, hm⟩ := argv2Object_ok_elim mode tokens m h
  rw [hm, objGet_fromEntries]

/-- Witness for C5 at the claim's concrete duplicate-key example:
parsing `["a=1", "a=2"]` in simple mode yields a mapping binding `a`
to the number 2 (the last occurrence). -/
theorem c5_aggregation_last_write_wins_witness :
    argv2Object (JSAny.boolean false) ["a=1", "a=2"] =
        Except.ok [("a", JSValue.num (JSNum.fin ⟨2, 0⟩))] ∧
      objGet [("a", JSValue.num (JSNum.fin ⟨2, 0⟩))] "a" =
        lastEntryValue ((["a=1", "a=2"] : List String).map tokenToEntry) "a" ∧
      objGet [("a", JSValue.num (JSNum.fin ⟨2, 0⟩))] "a" =
        some (JSValue.num (JSNum.fin ⟨2, 0⟩)) :=
  ⟨rfl,
    c5_aggregation_last_write_wins false ["a=1", "a=2"]
      [("a", JSValue.num (JSNum.fin ⟨2, 0⟩))] rfl "a",
    rfl⟩

/-- C6 counterexample: in camelcase mode only a lowercase letter after a
hyphen is absorbed and upper-cased (the replacement class is `[a-z]`), so
`formatKey("--x-B", camelcase)` returns `x-B` with the `-B` pair left
unchanged, not `xB` as the claim's "any letter following the hyphen"
requires. -/
theorem c6_camelcase_uppercase_counterexample :
    formatKey "--x-B" (some "camelcase") = "x-B" ∧ ("x-B" : String) ≠ "xB" :=
  ⟨rfl, by decide⟩

/-- C6 amended: formatKey strips one or two leading dashes; snake casing
then replaces every remaining hyphen with an underscore; camel casing
removes each hyphen followed by a lowercase letter and upper-cases that
letter, while a hyphen followed by anything else (including an uppercase
letter) is left unchanged; no casing returns the dash-stripped key. -/
theorem c6_formatKey_amended (key : String) (pre post : List Char) (c : Char)
    (hpre : ∀ a ∈ pre, ¬ a = '-') :
    formatKey key none = String.mk (stripLeadingDashes key.data) ∧
      formatKey key (some "snakecase") =
        String.mk ((stripLeadingDashes key.data).map dashToUnderscore) ∧
      formatKey key (some "camelcase") =
        String.mk (camelize (stripLeadingDashes key.data)) ∧
      stripLeadingDashes ('-' :: '-' :: pre) = pre ∧
      (¬ c = '-' → stripLeadingDashes ('-' :: c :: post) = c :: post) ∧
      (¬ c = '-' → stripLeadingDashes (c :: post) = c :: post) ∧
      (isLowerAlpha c = true →
        camelize (pre ++ '-' :: c :: post) = pre ++ c.toUpper :: camelize post) ∧
      (isLowerAlpha c = false → ¬ c = '-' →
        camelize (pre ++ '-' :: c :: post) = pre ++ '-' :: c :: camelize post) ∧
      ((∀ a ∈ pre, ¬ a = '-') →
        camelize pre = pre ∧ pre.map dashToUnderscore = pre) := by
  refine ⟨formatKey_none key, formatKey_snakecase key, formatKey_camelcase key,
    by simp [stripLeadingDashes], fun hc => by simp [stripLeadingDashes, hc],
    fun hc => by simp [stripLeadingDashes, hc], fun hc => ?_, fun hc hcd => ?_,
    fun h => ⟨camelize_no_dash_id pre h, map_dashToUnderscore_no_dash_id pre h⟩⟩
  · rw [camelize_append_no_dash pre _ hpre]
    cases post with
    | nil => simp [camelize, hc]
    | cons c3 rest3 => simp [camelize, hc]
  · rw [camelize_append_no_dash pre _ hpre]
    cases post with
    | nil => simp [camelize, hc, hcd]
    | cons c3 rest3 => simp [camelize, hc, hcd, camelize_cons_of_ne_dash c _ hcd]

/-- Witness for the amended C6 at concrete inputs: key `--is-admin`, a
dash-free context `ab`, the lowercase letter `c` and tail `d`. -/
theorem c6_formatKey_amended_witness :
    (∀ a ∈ (['a', 'b'] : List Char), ¬ a = '-') ∧
      (formatKey "--is-admin" none =
          String.mk (stripLeadingDashes ("--is-admin".data)) ∧
        formatKey "--is-admin" (some "snakecase") =
          String.mk ((stripLeadingDashes ("--is-admin".data)).map dashToUnderscore) ∧
        formatKey "--is-admin" (some "camelcase") =
          String.mk (camelize (stripLeadingDashes ("--is-admin".data))) ∧
        stripLeadingDashes ('-' :: '-' :: ['a', 'b']) = ['a', 'b'] ∧
        (¬ 'c' = '-' → stripLeadingDashes ('-' :: 'c' :: ['d']) = 'c' :: ['d']) ∧
        (¬ 'c' = '-' → stripLeadingDashes ('c' :: ['d']) = 'c' :: ['d']) ∧
        (isLowerAlpha 'c' = true →
          camelize (['a', 'b'] ++ '-' :: 'c' :: ['d']) =
            ['a', 'b'] ++ 'c'.toUpper :: camelize ['d']) ∧
        (isLowerAlpha 'c' = false → ¬ 'c' = '-' →
          camelize (['a', 'b'] ++ '-' :: 'c' :: ['d']) =
            ['a', 'b'] ++ '-' :: 'c' :: camelize ['d']) ∧
        ((∀ a ∈ (['a', 'b'] : List Char), ¬ a = '-') →
          camelize ['a', 'b'] = ['a', 'b'] ∧
            (['a', 'b'] : List Char).map dashToUnderscore = ['a', 'b'])) :=
  ⟨by decide, c6_formatKey_amended "--is-admin" ['a', 'b'] ['d'] 'c' (by decide)⟩

/-- C7 counterexample: with the non-boolean mode value 12 and an empty
token sequence the call fails with the InvalidModeType error, not the
EmptyArguments error, because the mode type check precedes the emptiness
check — so "for every value of the mode argument" the empty sequence
does not fail with EmptyArguments. -/
theorem c7_nonboolean_mode_empty_counterexample :
    argv2Object (JSAny.number (JSNum.fin ⟨12, 0⟩)) [] =
        Except.error ArgvError.invalidModeType ∧
      ArgvError.invalidModeType ≠ ArgvError.emptyArguments :=
  ⟨rfl, by decide⟩

/-- C7 amended: for both boolean values of the mode argument an empty
token sequence always makes the call fail with the EmptyArguments error
and no mapping is returned (a non-boolean mode fails earlier with
InvalidModeType). -/
theorem c7_empty_rejected_amended (b : Bool) :
    argv2Object (JSAny.boolean b) [] = Except.error ArgvError.emptyArguments := by
  cases b <;> rfl

/-- C8: for every token sequence, a mode value outside {true, false} makes
the call fail with the InvalidModeType error — which the source throws as
a TypeError — before any token is examined. -/
theorem c8_nonboolean_mode_invalid_type (mode : JSAny) (tokens : List String)
    (h : typeofIsBoolean mode = false) :
    argv2Object mode tokens = Except.error ArgvError.invalidModeType ∧
      errorIsTypeError ArgvError.invalidModeType = true := by
  cases mode with
  | boolean b => simp [typeofIsBoolean] at h
  | number n => exact ⟨rfl, rfl⟩
  | string s => exact ⟨rfl, rfl⟩

/-- Witness for C8 at the claim's concrete example: the number 12 as
mode, with a token list present. -/
theorem c8_nonboolean_mode_invalid_type_witness :
    typeofIsBoolean (JSAny.number (JSNum.fin ⟨12, 0⟩)) = false ∧
      (argv2Object (JSAny.number (JSNum.fin ⟨12, 0⟩)) ["a=1"] =
          Except.error ArgvError.invalidModeType ∧
        errorIsTypeError ArgvError.invalidModeType = true) :=
  ⟨rfl, c8_nonboolean_mode_invalid_type (JSAny.number (JSNum.fin ⟨12, 0⟩)) ["a=1"] rfl⟩

/-- C9: whenever argv2Object returns a mapping, the mapping is nonempty,
has at most one key per input token, and has exactly one key per token
when the formatted keys are pairwise distinct (so the key count drops
below the token count only when formatted keys collide). -/
theorem c9_result_size_invariants (mode : JSAny) (tokens : List String)
    (m : JSObject) (h : argv2Object mode tokens = Except.ok m) :
    m ≠ [] ∧ m.length ≤ tokens.length ∧
      ((tokens.map fun t => (tokenToEntry t).1).Nodup → m.length = tokens.length) := by
  cases mode with
  | number n => simp [argv2Object] at h
  | string s => simp [argv2Object] at h
  | boolean b =>
    obtain ⟨hne, hm⟩ := argv2Object_ok_elim b tokens m h
    subst hm
    refine ⟨fromEntries_ne_nil _ (by simpa using hne), ?_, fun hnd => ?_⟩
    · have := fromEntries_length_le (tokens.map tokenToEntry)
      simpa using this
    · have hkeys : (tokens.map tokenToEntry).map Prod.fst =
          tokens.map fun t => (tokenToEntry t).1 := by
        simp [List.map_map, Function.comp]
      have := fromEntries_length_nodup (tokens.map tokenToEntry) (by rw [hkeys]; exact hnd)
      simpa using this

/-- Witness for C9 at the concrete successful call on `["-h"]`. -/
theorem c9_result_size_invariants_witness :
    argv2Object (JSAny.boolean true) ["-h"] =
        Except.ok [("h", JSValue.boolean true)] ∧
      (([("h", JSValue.boolean true)] : JSObject) ≠ [] ∧
        ([("h", JSValue.boolean true)] : JSObject).length ≤
          (["-h"] : List String).length ∧
        (((["-h"] : List String).map fun t => (tokenToEntry t).1).Nodup →
          ([("h", JSValue.boolean true)] : JSObject).length =
            (["-h"] : List String).length)) :=
  ⟨rfl,
    c9_result_size_invariants (JSAny.boolean true) ["-h"]
      [("h", JSValue.boolean true)] rfl⟩

/-- C10: formatKey in snakecase mode is idempotent — its output contains
no hyphen (every hyphen was replaced by an underscore) and hence starts
with no dash, so a second application changes nothing. -/
theorem c10_snakecase_idempotent (key : String) :
    formatKey (formatKey key (some "snakecase")) (some "snakecase") =
      formatKey key (some "snakecase") := by
  rw [formatKey_snakecase key, formatKey_snakecase]
  have hnod : ∀ c ∈ (stripLeadingDashes key.data).map dashToUnderscore, ¬ c = '-' := by
    intro c hc
    obtain ⟨a, -, rfl⟩ := List.mem_map.mp hc
    exact dashToUnderscore_ne_dash a
  rw [show (String.mk ((stripLeadingDashes key.data).map dashToUnderscore)).data =
      (stripLeadingDashes key.data).map dashToUnderscore from rfl]
  rw [strip_of_head_not_dash _ hnod, map_dashToUnderscore_idem]
